import Mathlib

/-!
Verification development for the jwt-decoder repository.

The repository's JWT logic lives in two React components,
src/components/jwt/jwt-decoder.tsx (the decode-only path) and
src/components/jwt/jwt-tool.tsx (the three verification flows plus the
CORS-proxy fetch helper).  This file embeds that logic shallowly:

* JavaScript strings are modelled as `List Char` so that every definition
  computes by structural recursion and closed statements can be settled
  with `decide` or `rfl`.
* JavaScript's `String.prototype.split` with the one-character separator
  "." (the only separator the source uses) is `splitOnChar`.
* The browser builtin `atob` (WHATWG forgiving-base64 decode, the function
  the source uses to decode header and payload segments) is modelled in
  full: whitespace stripping, optional trailing "=" padding, rejection of
  length ≡ 1 (mod 4) and of characters outside the standard alphabet.
* JSON values are the inductive `Json`; `JSON.parse` is modelled by a
  fueled recursive-descent parser `jsonParse`.  Two documented
  simplifications that no claim exercises: string escape sequences and
  fractional/exponent number forms are rejected rather than parsed, and
  duplicate object keys resolve to the first occurrence.
* The jose library (an external dependency, not repository code) is
  modelled from its documented behaviour: `jwtVerify` splits the compact
  serialization, base64url-decodes (jose, unlike the repository's own
  `atob` calls, maps "-" and "_" before decoding), resolves the algorithm
  from the protected header, restricts it to the supported JWS algorithm
  set (which does not contain "none") and to the caller's `algorithms`
  option when present, and only then runs the cryptographic check.  The
  cryptographic primitive itself is an oracle parameter, and each model
  returns the list of algorithm names with which the oracle was invoked,
  so that "which algorithm reached signature verification" is a statement
  about a trace.
* Network fetches are modelled by an environment `Nat → FetchResult`
  giving the outcome of the n-th fetch call and a `NetState` recording the
  call counter and the trace of requested URLs.
-/

set_option autoImplicit false

namespace JwtDecoder

/-- JavaScript string.split with a one-character separator.  Mirrors JS
semantics, in particular the empty string splits to one empty part and a
trailing separator yields a trailing empty part. -/
def splitOnChar (sep : Char) : List Char → List (List Char)
  | [] => [[]]
  | c :: cs =>
    match splitOnChar sep cs with
    | [] => [[]]
    | p :: ps => if c = sep then [] :: p :: ps else (c :: p) :: ps

/-- Characters removed by the forgiving-base64 algorithm before decoding. -/
def isB64Ws (c : Char) : Bool :=
  c = ' ' || c = '\t' || c = '\n' || c = '\r' || c = '\x0c'

/-- Value of a character in the standard base64 alphabet, none outside it. -/
def b64Val (c : Char) : Option Nat :=
  if 'A' ≤ c ∧ c ≤ 'Z' then some (c.toNat - 'A'.toNat)
  else if 'a' ≤ c ∧ c ≤ 'z' then some (c.toNat - 'a'.toNat + 26)
  else if '0' ≤ c ∧ c ≤ '9' then some (c.toNat - '0'.toNat + 52)
  else if c = '+' then some 62
  else if c = '/' then some 63
  else none

/-- Strip one or two trailing "=" characters (forgiving-base64 step 2). -/
def dropTrailingEq (s : List Char) : List Char :=
  match s.reverse with
  | '=' :: '=' :: r => r.reverse
  | '=' :: r => r.reverse
  | _ => s

/-- Reassemble 6-bit groups into 8-bit bytes; a leftover group of two or
three sextets contributes one or two bytes, discarding the spare bits, as
forgiving-base64 prescribes. -/
def sextetsToBytes : List Nat → List Nat
  | a :: b :: c :: d :: rest =>
    (a * 4 + b / 16) :: ((b % 16) * 16 + c / 4) :: ((c % 4) * 64 + d) :: sextetsToBytes rest
  | [a, b] => [a * 4 + b / 16]
  | [a, b, c] => [a * 4 + b / 16, (b % 16) * 16 + c / 4]
  | _ => []

/-- The browser builtin atob: WHATWG forgiving-base64 decode to a binary
string (each byte one character).  Fails (returns none, the model of the
thrown InvalidCharacterError) on length ≡ 1 (mod 4) after whitespace and
padding removal, and on any character outside the standard alphabet.
Note the standard alphabet: "+" and "/" are accepted, "-" and "_" are
not. -/
def atob (s0 : List Char) : Option (List Char) :=
  let s1 := s0.filter (fun c => !isB64Ws c)
  let s2 := if s1.length % 4 = 0 then dropTrailingEq s1 else s1
  if s2.length % 4 = 1 then none
  else (s2.mapM b64Val).map (fun vals => (sextetsToBytes vals).map Char.ofNat)

/-- jose's browser base64url decoder: map the URL-safe characters to the
standard alphabet, then decode as atob does. -/
def joseB64urlDecode (s : List Char) : Option (List Char) :=
  atob (s.map (fun c => if c = '-' then '+' else if c = '_' then '/' else c))

/-- JSON values.  Numbers are modelled as integers; no claim involves
fractional numbers. -/
inductive Json where
  | null
  | bool (b : Bool)
  | num (n : Int)
  | str (s : List Char)
  | arr (xs : List Json)
  | obj (kvs : List (List Char × Json))

/-- Skip JSON whitespace. -/
def skipWs : List Char → List Char
  | c :: cs => if c = ' ' || c = '\t' || c = '\n' || c = '\r' then skipWs cs else c :: cs
  | [] => []

/-- Parse the remainder of a JSON string literal after the opening quote.
Escape sequences are not modelled (the parser fails on a backslash); no
claim exercises them. -/
def parseStringLit : List Char → Option (List Char × List Char)
  | [] => none
  | c :: cs =>
    if c = '"' then some ([], cs)
    else if c = '\\' then none
    else (parseStringLit cs).map (fun p => (c :: p.1, p.2))

/-- Leading decimal digits of the input. -/
def parseDigits : List Char → (List Char × List Char)
  | [] => ([], [])
  | c :: cs =>
    if '0' ≤ c ∧ c ≤ '9' then
      let p := parseDigits cs
      (c :: p.1, p.2)
    else ([], c :: cs)

/-- Digit list to natural number value. -/
def digitsToNat (ds : List Char) : Nat :=
  ds.foldl (fun acc c => acc * 10 + (c.toNat - '0'.toNat)) 0

/-- Parse a JSON integer (optional leading minus, then digits). -/
def parseNum (s : List Char) : Option (Json × List Char) :=
  match s with
  | '-' :: rest =>
    match parseDigits rest with
    | ([], _) => none
    | (ds, r) => some (.num (-(digitsToNat ds : Int)), r)
  | _ =>
    match parseDigits s with
    | ([], _) => none
    | (ds, r) => some (.num (digitsToNat ds : Int), r)

mutual

/-- Fueled recursive-descent JSON value parser. -/
def parseVal : Nat → List Char → Option (Json × List Char)
  | 0, _ => none
  | fuel + 1, s =>
    match skipWs s with
    | [] => none
    | c :: cs =>
      if c = '"' then (parseStringLit cs).map (fun p => (.str p.1, p.2))
      else if c = 't' then
        match cs with
        | 'r' :: 'u' :: 'e' :: r => some (.bool true, r)
        | _ => none
      else if c = 'f' then
        match cs with
        | 'a' :: 'l' :: 's' :: 'e' :: r => some (.bool false, r)
        | _ => none
      else if c = 'n' then
        match cs with
        | 'u' :: 'l' :: 'l' :: r => some (.null, r)
        | _ => none
      else if c = '[' then
        match skipWs cs with
        | ']' :: r => some (.arr [], r)
        | cs2 => (parseArrElems fuel cs2).map (fun p => (.arr p.1, p.2))
      else if c = '{' then
        match skipWs cs with
        | '}' :: r => some (.obj [], r)
        | cs2 => (parseObjMembers fuel cs2).map (fun p => (.obj p.1, p.2))
      else parseNum (c :: cs)

/-- Comma-separated array elements up to the closing bracket. -/
def parseArrElems : Nat → List Char → Option (List Json × List Char)
  | 0, _ => none
  | fuel + 1, s =>
    match parseVal fuel s with
    | none => none
    | some (v, r) =>
      match skipWs r with
      | ',' :: r2 =>
        (parseArrElems fuel r2).map (fun p => (v :: p.1, p.2))
      | ']' :: r2 => some ([v], r2)
      | _ => none

/-- Comma-separated object members up to the closing brace. -/
def parseObjMembers : Nat → List Char → Option (List (List Char × Json) × List Char)
  | 0, _ => none
  | fuel + 1, s =>
    match skipWs s with
    | '"' :: cs =>
      match parseStringLit cs with
      | none => none
      | some (k, r) =>
        match skipWs r with
        | ':' :: r2 =>
          match parseVal fuel r2 with
          | none => none
          | some (v, r3) =>
            match skipWs r3 with
            | ',' :: r4 =>
              (parseObjMembers fuel r4).map (fun p => ((k, v) :: p.1, p.2))
            | '}' :: r4 => some ([(k, v)], r4)
            | _ => none
        | _ => none
    | _ => none

end

/-- The model of JSON.parse: parse one value and require only trailing
whitespace after it. -/
def jsonParse (s : List Char) : Option Json :=
  match parseVal (2 * s.length + 8) s with
  | some (v, r) => if skipWs r = [] then some v else none
  | none => none

/-- A JavaScript expression value as the flows see it: none models the
undefined value, some j a JSON-shaped value. -/
def JsVal : Type := Option Json

/-- Property lookup, undefined on a missing key or a non-object base.
JSON.parse resolves duplicate keys to the last occurrence; the model takes
the first, and no claim involves duplicate keys. -/
def jsLookup (v : Json) (k : List Char) : JsVal :=
  match v with
  | .obj kvs => (kvs.find? (fun kv => kv.1 == k)).map (fun kv => kv.2)
  | _ => none

/-- JavaScript truthiness of a value. -/
def jsTruthy : JsVal → Bool
  | none => false
  | some .null => false
  | some (.bool b) => b
  | some (.num n) => n != 0
  | some (.str s) => !s.isEmpty
  | some (.arr _) => true
  | some (.obj _) => true

/-- JavaScript a || b. -/
def jsOr (a b : JsVal) : JsVal := if jsTruthy a then a else b

/-- JavaScript strict equality on the values the flows compare.  Equality
of two object or array values is reference equality in JavaScript; the
flows only ever compare values originating from distinct JSON.parse
results, so composite-composite comparison is modelled as false. -/
def jsStrictEq : JsVal → JsVal → Bool
  | none, none => true
  | some .null, some .null => true
  | some (.bool a), some (.bool b) => a == b
  | some (.num a), some (.num b) => a == b
  | some (.str a), some (.str b) => a == b
  | _, _ => false

/-- Decimal digits of a natural number, via explicit fuel so that the
definition reduces in the kernel. -/
def natToStrAux : Nat → Nat → List Char
  | 0, _ => []
  | fuel + 1, n =>
    if n < 10 then [Char.ofNat (n + '0'.toNat)]
    else natToStrAux fuel (n / 10) ++ [Char.ofNat (n % 10 + '0'.toNat)]

/-- Decimal rendering of a natural number. -/
def natToStr (n : Nat) : List Char := natToStrAux (n + 1) n

/-- Decimal rendering of an integer. -/
def intToStr (n : Int) : List Char :=
  if n < 0 then '-' :: natToStr n.natAbs else natToStr n.natAbs

/-- Fueled body of the JavaScript string coercion; the fuel dominates the
nesting depth, so the public wrapper below never exhausts it. -/
def jsonToStrF : Nat → Json → List Char
  | 0, _ => []
  | fuel + 1, j =>
    match j with
    | .null => "null".data
    | .bool true => "true".data
    | .bool false => "false".data
    | .num n => intToStr n
    | .str s => s
    | .arr xs =>
      List.intercalate ",".data
        (xs.map (fun x =>
          match x with
          | .null => ([] : List Char)
          | x => jsonToStrF fuel x))
    | .obj _ => "[object Object]".data

/-- JavaScript string coercion of a JSON-shaped value.  Arrays join their
elements with commas, a null or empty element rendering as the empty
string; objects render as the usual object placeholder.  The fuel bounds
only the rendering depth of arrays nested inside arrays, a shape no flow
coerces; every value of lesser nesting renders exactly. -/
def jsonToStr (j : Json) : List Char := jsonToStrF 64 j

/-- JavaScript string coercion including the undefined value. -/
def jsToStr : JsVal → List Char
  | none => "undefined".data
  | some j => jsonToStr j

/-- Characters encodeURIComponent leaves unescaped. -/
def isUriUnreserved (c : Char) : Bool :=
  ('A' ≤ c && c ≤ 'Z') || ('a' ≤ c && c ≤ 'z') || ('0' ≤ c && c ≤ '9') ||
  c = '-' || c = '_' || c = '.' || c = '!' || c = '~' || c = '*' ||
  c = '\'' || c = '(' || c = ')'

/-- Uppercase hexadecimal digit. -/
def hexDigit (n : Nat) : Char :=
  if n < 10 then Char.ofNat (n + '0'.toNat) else Char.ofNat (n - 10 + 'A'.toNat)

/-- UTF-8 bytes of a code point. -/
def utf8Bytes (n : Nat) : List Nat :=
  if n < 0x80 then [n]
  else if n < 0x800 then [0xC0 + n / 64, 0x80 + n % 64]
  else if n < 0x10000 then [0xE0 + n / 4096, 0x80 + n / 64 % 64, 0x80 + n % 64]
  else [0xF0 + n / 262144, 0x80 + n / 4096 % 64, 0x80 + n / 64 % 64, 0x80 + n % 64]

/-- Percent-escape of one byte. -/
def pctByte (b : Nat) : List Char := ['%', hexDigit (b / 16 % 16), hexDigit (b % 16)]

/-- The encodeURIComponent builtin. -/
def encodeURIComponent (s : List Char) : List Char :=
  s.flatMap (fun c =>
    if isUriUnreserved c then [c] else (utf8Bytes c.toNat).flatMap pctByte)

/-- The CORS proxy URL rewrite the source applies, the literal
https-corsproxy prefix followed by the escaped original URL. -/
def corsProxied (url : List Char) : List Char :=
  "https://corsproxy.io/?".data ++ encodeURIComponent url

/-! ## The network model -/

/-- A fetch response as the flows consume it: the ok flag (status in the
2xx range) and the body text that response.json() would parse. -/
structure Response where
  ok : Bool
  body : List Char
deriving DecidableEq

/-- Outcome of one fetch call: a response, or a thrown transport error
carrying its message. -/
def FetchResult : Type := Except (List Char) Response

/-- Network state threaded through the OIDC flow: how many fetch calls
have happened and the URLs requested so far, in order. -/
structure NetState where
  n : Nat
  trace : List (List Char)
deriving DecidableEq

/-- One fetch call: the environment determines the outcome of the n-th
call; the requested URL is appended to the trace. -/
def doFetch (env : Nat → FetchResult) (url : List Char) (st : NetState) :
    FetchResult × NetState :=
  (env st.n, ⟨st.n + 1, st.trace ++ [url]⟩)

/-- The proxy attempt inside the try block of fetchWithCorsProxyFallback:
one fetch of the proxied URL, throwing on a non-ok response. -/
def fetchProxyAttempt (env : Nat → FetchResult) (url : List Char)
    (st : NetState) : FetchResult × NetState :=
  match doFetch env (corsProxied url) st with
  | (.error e, st2) => (.error e, st2)
  | (.ok r, st2) =>
    if r.ok then (.ok r, st2)
    else (.error ("Failed to fetch from ".data ++ url ++ " (with CORS proxy): ".data), st2)

/-- The try-block body of fetchWithCorsProxyFallback: when not forced to
the proxy, a direct fetch whose ok response returns immediately and whose
non-ok response falls through to the proxy attempt. -/
def fetchFallbackTry (env : Nat → FetchResult) (url : List Char)
    (useCorsProxy : Bool) (st : NetState) : FetchResult × NetState :=
  if useCorsProxy then fetchProxyAttempt env url st
  else
    match doFetch env url st with
    | (.error e, st1) => (.error e, st1)
    | (.ok r, st1) => if r.ok then (.ok r, st1) else fetchProxyAttempt env url st1

/-- fetchWithCorsProxyFallback from jwt-tool.tsx.  The catch handler
rethrows when the caller forced the proxy, and otherwise performs a proxy
attempt of its own — also when the exception it caught came from the proxy
attempt inside the try block. -/
def fetchWithCorsProxyFallback (env : Nat → FetchResult) (url : List Char)
    (useCorsProxy : Bool) (st : NetState) : FetchResult × NetState :=
  match fetchFallbackTry env url useCorsProxy st with
  | (.ok r, st1) => (.ok r, st1)
  | (.error e, st1) =>
    if useCorsProxy then (.error e, st1)
    else
      match doFetch env (corsProxied url) st1 with
      | (.error e2, st2) => (.error e2, st2)
      | (.ok r, st2) =>
        if r.ok then (.ok r, st2)
        else (.error ("Failed to fetch from ".data ++ url ++ " (with CORS proxy fallback): ".data), st2)

/-! ## The decode-only path (jwt-decoder.tsx) -/

/-- The distinct exceptions decodeJwt can throw: its own three-part check,
an atob InvalidCharacterError, or a JSON.parse SyntaxError. -/
inductive DecodeError where
  | malformedToken
  | invalidCharacter
  | jsonError
deriving DecidableEq

/-- The decoded token triple decodeJwt produces. -/
structure DecodedJWT where
  header : Json
  payload : Json
  signature : List Char

/-- decodeJwt from jwt-decoder.tsx: split on dots, require exactly three
parts (the length check; a dot split yields three parts exactly when the
input has exactly two dots, empty parts included), then atob-decode and
JSON.parse the first two parts, keeping the third verbatim. -/
def decodeJwt (token : List Char) : Except DecodeError DecodedJWT :=
  match splitOnChar '.' token with
  | [hseg, pseg, sseg] =>
    match atob hseg with
    | none => .error .invalidCharacter
    | some hb =>
      match jsonParse hb with
      | none => .error .jsonError
      | some h =>
        match atob pseg with
        | none => .error .invalidCharacter
        | some pb =>
          match jsonParse pb with
          | none => .error .jsonError
          | some p => .ok ⟨h, p, sseg⟩
  | _ => .error .malformedToken

/-! ## The jose model

The jose library is an external dependency; the definitions below model
its documented jwtVerify behaviour.  The cryptographic primitive is an
oracle parameter, and every verification model additionally returns the
list of algorithm names with which the oracle was invoked. -/

/-- The JWS algorithms the verifier supports for the key kinds the tool
accepts; the none algorithm is not implemented by jwtVerify at all. -/
def supportedAlgs : List (List Char) :=
  ["HS256", "HS384", "HS512", "RS256", "RS384", "RS512",
   "ES256", "ES384", "ES512", "PS256", "PS384", "PS512"].map String.data

/-- Options the flows pass to jwtVerify. -/
structure JoseOptions where
  algorithms : Option (List (List Char)) := none
  issuer : JsVal := none

/-- The cryptographic signature check, abstracted: algorithm name, key,
signing input (the raw header-dot-payload text) and decoded signature
bytes. -/
def SigOracle : Type := List Char → Json → List Char → List Char → Bool

/-- jwtVerify's algorithm resolution: the algorithm is the one the
protected header declares; it must be in the supported set, and in the
caller's algorithms option when one was given. -/
def joseResolveAlg (hdr : Json) (allowed : Option (List (List Char))) :
    Except (List Char) (List Char) :=
  match jsLookup hdr "alg".data with
  | some (.str a) =>
    if a ∈ supportedAlgs then
      match allowed with
      | some l => if a ∈ l then .ok a else .error "\"alg\" (Algorithm) Header Parameter value not allowed".data
      | none => .ok a
    else .error "Unsupported \"alg\" value".data
  | _ => .error "Unsupported \"alg\" value".data

/-- jwtVerify's issuer claim check: enforced only when the issuer option
is a truthy value, by strict equality with the payload's iss claim. -/
def joseCheckIssuer (payload : Json) (issuer : JsVal) : Bool :=
  if jsTruthy issuer then jsStrictEq (jsLookup payload "iss".data) issuer else true

/-- The shared body of jwtVerify: split the compact serialization,
base64url-decode and parse the protected header, resolve the algorithm,
obtain the key (a constant for local keys, kid-based selection for a
remote JWK set), run the signature oracle over the exact signing input,
then decode the payload, require a JSON object and check the issuer
option. -/
def joseVerifyCore (σ : SigOracle) (token : List Char)
    (keyOf : Json → Except (List Char) Json) (opts : JoseOptions) :
    Except (List Char) (Json × Json) × List (List Char) :=
  match splitOnChar '.' token with
  | [h, p, s] =>
    match joseB64urlDecode h with
    | none => (.error "JWS Protected Header is invalid".data, [])
    | some hb =>
      match jsonParse hb with
      | none => (.error "JWS Protected Header is invalid".data, [])
      | some hdr =>
        match joseResolveAlg hdr opts.algorithms with
        | .error e => (.error e, [])
        | .ok a =>
          match keyOf hdr with
          | .error e => (.error e, [])
          | .ok key =>
            match joseB64urlDecode s with
            | none => (.error "Failed to base64url decode the signature".data, [])
            | some sig =>
              if σ a key (h ++ '.' :: p) sig then
                match joseB64urlDecode p with
                | none => (.error "Failed to base64url decode the payload".data, [a])
                | some pb =>
                  match jsonParse pb with
                  | none => (.error "Failed to parse the decoded payload as JSON".data, [a])
                  | some payload =>
                    match payload with
                    | .obj kvs =>
                      if joseCheckIssuer (.obj kvs) opts.issuer then (.ok (.obj kvs, hdr), [a])
                      else (.error "unexpected \"iss\" claim value".data, [a])
                    | _ => (.error "JWT Claims Set must be a top-level JSON object".data, [a])
              else (.error "signature verification failed".data, [a])
  | _ => (.error "Invalid Compact JWS".data, [])

/-- jwtVerify with a caller-supplied local key. -/
def joseJwtVerify (σ : SigOracle) (token : List Char) (key : Json)
    (opts : JoseOptions) : Except (List Char) (Json × Json) × List (List Char) :=
  joseVerifyCore σ token (fun _ => .ok key) opts

/-- The remote JWK set's key selection: the first key of the set whose kid
strictly equals the kid the protected header declares. -/
def joseSelectJwk (keys : List Json) (hdr : Json) : Except (List Char) Json :=
  match jsLookup hdr "kid".data with
  | some (.str k) =>
    match keys.find? (fun j => jsStrictEq (jsLookup j "kid".data) (some (.str k))) with
    | some j => .ok j
    | none => .error "no applicable key found in the JSON Web Key Set".data
  | _ => .error "no applicable key found in the JSON Web Key Set".data

/-- jwtVerify with a remote JWK set: the set is fetched from its URL (one
plain fetch, no proxy fallback) when verification first needs it, parsed,
and the key is selected by the header's kid. -/
def joseJwtVerifyRemote (σ : SigOracle) (env : Nat → FetchResult)
    (token jwksUrl : List Char) (opts : JoseOptions) (st : NetState) :
    (Except (List Char) (Json × Json) × List (List Char)) × NetState :=
  match doFetch env jwksUrl st with
  | (.error e, st1) => ((.error e, []), st1)
  | (.ok r, st1) =>
    if r.ok then
      match jsonParse r.body with
      | none => ((.error "Failed to parse the JSON Web Key Set as JSON".data, []), st1)
      | some jwksJson =>
        match jsLookup jwksJson "keys".data with
        | some (.arr keys) => (joseVerifyCore σ token (joseSelectJwk keys) opts, st1)
        | _ => ((.error "JSON Web Key Set malformed".data, []), st1)
    else ((.error "Expected 200 OK from the JSON Web Key Set HTTP response".data, []), st1)

/-! ## The verification orchestrator (jwt-tool.tsx) -/

/-- The result structure the flows produce: the validity flag, the
message, and on success the details pair of verified payload and
protected header. -/
structure VerificationResult where
  isValid : Bool
  message : List Char
  details : Option (Json × Json)

/-- The catch-all boundary of every flow: a successful pipeline produces
the flow's success message with the details attached, a thrown error
becomes an invalid result carrying the error's message and no details. -/
def mkResult (okMsg : List Char) : Except (List Char) (Json × Json) → VerificationResult
  | .ok d => ⟨true, okMsg, some d⟩
  | .error m => ⟨false, m, none⟩

/-- jose.importSPKI, abstracted: PEM text and algorithm name to a parsed
key or a thrown error. -/
def ImportSpki : Type := List Char → List Char → Except (List Char) Unit

/-- The header peek both the asymmetric and the OIDC flows perform:
JSON.parse(atob(token.split(".")[0])).  Note the use of atob, the
standard-base64 decoder, not a base64url decoder. -/
def headerPeek (token : List Char) : Except (List Char) Json :=
  match atob ((splitOnChar '.' token).headD []) with
  | none => .error "InvalidCharacterError: The string to be decoded is not correctly encoded.".data
  | some hb =>
    match jsonParse hb with
    | none => .error "SyntaxError: Unexpected token in JSON".data
    | some h => .ok h

/-- The asymmetric flow's algorithm choice, the JavaScript expression
algorithm || tokenHeader.alg || "RS256" coerced to the string importSPKI
and the algorithms option receive. -/
def asymEffectiveAlg (algorithm : Option (List Char)) (hdr : Json) : List Char :=
  jsToStr (jsOr (jsOr (algorithm.map Json.str) (jsLookup hdr "alg".data))
    (some (.str "RS256".data)))

/-- The fallible body of verifyWithAsymmetricKey: peek the header, choose
the algorithm, import the PEM key for it, and verify with the algorithms
option pinned to that single algorithm. -/
def verifyWithAsymmetricKeyCore (imp : ImportSpki) (σ : SigOracle)
    (token publicKey : List Char) (algorithm : Option (List Char)) :
    Except (List Char) (Json × Json) × List (List Char) :=
  match headerPeek token with
  | .error e => (.error e, [])
  | .ok hdr =>
    match imp publicKey (asymEffectiveAlg algorithm hdr) with
    | .error e => (.error e, [])
    | .ok _ =>
      joseJwtVerify σ token (.str publicKey)
        { algorithms := some [asymEffectiveAlg algorithm hdr] }

/-- verifyWithAsymmetricKey: the fallible body behind the catch-all
boundary, together with the signature-oracle trace. -/
def verifyWithAsymmetricKey (imp : ImportSpki) (σ : SigOracle)
    (token publicKey : List Char) (algorithm : Option (List Char)) :
    VerificationResult × List (List Char) :=
  let r := verifyWithAsymmetricKeyCore imp σ token publicKey algorithm
  (mkResult "Token successfully verified with asymmetric key".data r.1, r.2)

/-- The fallible body of verifyWithSymmetricKey: encode the secret and
verify with the algorithms option pinned to the form's chosen HMAC
algorithm. -/
def verifyWithSymmetricKeyCore (σ : SigOracle)
    (token secretKey algorithm : List Char) :
    Except (List Char) (Json × Json) × List (List Char) :=
  joseJwtVerify σ token (.str secretKey) { algorithms := some [algorithm] }

/-- verifyWithSymmetricKey: the fallible body behind the catch-all
boundary, together with the signature-oracle trace. -/
def verifyWithSymmetricKey (σ : SigOracle)
    (token secretKey algorithm : List Char) :
    VerificationResult × List (List Char) :=
  let r := verifyWithSymmetricKeyCore σ token secretKey algorithm
  (mkResult "Token successfully verified with symmetric key".data r.1, r.2)

/-- The discovery document URL: the issuer URL with the well-known suffix,
avoiding a doubled slash. -/
def openIdConfigUrl (issuerUrl : List Char) : List Char :=
  if issuerUrl.getLast? = some '/' then
    issuerUrl ++ ".well-known/openid-configuration".data
  else issuerUrl ++ "/.well-known/openid-configuration".data

/-- The fallible body of verifyWithOpenId: fetch the discovery document
with proxy fallback, extract jwks_uri, fetch the JWKS with proxy
fallback, peek the token header for its kid, require a matching key in
the fetched set, then verify through a remote JWK set pointed at the JWKS
URL (proxied when the caller forced the proxy) with the issuer option set
to the discovery document's issuer. -/
def verifyWithOpenIdCore (σ : SigOracle) (env : Nat → FetchResult)
    (token issuerUrl : List Char) (useCorsProxy : Bool) (st : NetState) :
    (Except (List Char) (Json × Json) × List (List Char)) × NetState :=
  match fetchWithCorsProxyFallback env (openIdConfigUrl issuerUrl) useCorsProxy st with
  | (.error e, st1) => ((.error e, []), st1)
  | (.ok configResp, st1) =>
    match jsonParse configResp.body with
    | none => ((.error "SyntaxError: Unexpected token in JSON".data, []), st1)
    | some config =>
      if jsTruthy (jsLookup config "jwks_uri".data) then
        match fetchWithCorsProxyFallback env (jsToStr (jsLookup config "jwks_uri".data)) useCorsProxy st1 with
        | (.error e, st2) => ((.error e, []), st2)
        | (.ok jwksResp, st2) =>
          match jsonParse jwksResp.body with
          | none => ((.error "SyntaxError: Unexpected token in JSON".data, []), st2)
          | some jwks =>
            match headerPeek token with
            | .error e => ((.error e, []), st2)
            | .ok hdr =>
              if jsTruthy (jsLookup hdr "kid".data) then
                match jsLookup jwks "keys".data with
                | some (.arr keys) =>
                  match keys.find? (fun k =>
                      jsStrictEq (jsLookup k "kid".data) (jsLookup hdr "kid".data)) with
                  | none =>
                    ((.error ("No matching key found for kid: ".data ++
                      jsToStr (jsLookup hdr "kid".data)), []), st2)
                  | some _ =>
                    joseJwtVerifyRemote σ env token
                      (if useCorsProxy then corsProxied (jsToStr (jsLookup config "jwks_uri".data))
                       else jsToStr (jsLookup config "jwks_uri".data))
                      { issuer := jsLookup config "issuer".data } st2
                | _ => ((.error "TypeError: jwks.keys.find is not a function".data, []), st2)
              else ((.error "Token header does not contain a key ID (kid)".data, []), st2)
      else ((.error "JWKS URI not found in OpenID configuration".data, []), st1)

/-- verifyWithOpenId: the fallible body behind the catch-all boundary,
together with the signature-oracle trace and the final network state. -/
def verifyWithOpenId (σ : SigOracle) (env : Nat → FetchResult)
    (token issuerUrl : List Char) (useCorsProxy : Bool) (st : NetState) :
    (VerificationResult × List (List Char)) × NetState :=
  let r := verifyWithOpenIdCore σ env token issuerUrl useCorsProxy st
  ((mkResult "Token successfully verified with OpenID provider".data r.1.1, r.1.2), r.2)

/-! ## Claim-facing derived definitions -/

/-- The algorithm the token's protected header declares, along the same
path the verifier reads it: the first dot-separated segment, base64url
decoded and JSON parsed, its alg member when that is a string. -/
def tokenHeaderAlg (token : List Char) : Option (List Char) :=
  match splitOnChar '.' token with
  | [h, _, _] =>
    (joseB64urlDecode h).bind (fun hb =>
      (jsonParse hb).bind (fun hdr =>
        match jsLookup hdr "alg".data with
        | some (.str a) => some a
        | _ => none))
  | _ => none

/-- The specification's notion of valid Base64URL text for a segment:
every character in the URL-safe alphabet and no impossible length (length
congruent to 1 modulo 4 cannot arise from encoding bytes).  This is the
comparator for the claim about segment decoding, written from the
specification's words. -/
def specBase64UrlValid (s : List Char) : Bool :=
  s.all (fun c =>
    ('A' ≤ c && c ≤ 'Z') || ('a' ≤ c && c ≤ 'z') || ('0' ≤ c && c ≤ '9') ||
    c = '-' || c = '_') && decide (s.length % 4 ≠ 1)

/-! ## Helper lemmas -/

theorem mkResult_details_iff (m : List Char) (e : Except (List Char) (Json × Json)) :
    (mkResult m e).details.isSome = (mkResult m e).isValid := by
  cases e <;> rfl

theorem joseResolveAlg_ok {hdr : Json} {allowed : Option (List (List Char))}
    {a : List Char} (h : joseResolveAlg hdr allowed = .ok a) :
    a ∈ supportedAlgs ∧ jsLookup hdr "alg".data = some (.str a) ∧
      ∀ l, allowed = some l → a ∈ l := by
  unfold joseResolveAlg at h
  split at h
  next a0 heq =>
    split at h
    next hmem =>
      split at h
      next l =>
        split at h
        next hal =>
          cases h
          exact ⟨hmem, heq, fun l2 hl2 => by cases hl2; exact hal⟩
        next => cases h
      next =>
        cases h
        exact ⟨hmem, heq, fun l2 hl2 => by cases hl2⟩
    next => cases h
  next => cases h

theorem joseVerifyCore_trace {σ : SigOracle} {token : List Char}
    {keyOf : Json → Except (List Char) Json} {opts : JoseOptions} {a : List Char}
    (h : a ∈ (joseVerifyCore σ token keyOf opts).2) :
    a ∈ supportedAlgs ∧ tokenHeaderAlg token = some a ∧
      ∀ l, opts.algorithms = some l → a ∈ l := by
  unfold joseVerifyCore at h
  split at h
  next h1 p s hsplit =>
    split at h
    next => simp at h
    next hb hdec =>
      split at h
      next => simp at h
      next hdr hparse =>
        split at h
        next => simp at h
        next a0 hres =>
          have hok := joseResolveAlg_ok hres
          have htha : tokenHeaderAlg token = some a0 := by
            simp [tokenHeaderAlg, hsplit, hdec, hparse, hok.2.1]
          split at h
          next => simp at h
          next key hkey =>
            split at h
            next => simp at h
            next sig hsig =>
              split at h
              · split at h
                next => simp at h; cases h; exact ⟨hok.1, htha, hok.2.2⟩
                next pb hpb =>
                  split at h
                  next => simp at h; cases h; exact ⟨hok.1, htha, hok.2.2⟩
                  next payload hpay =>
                    split at h
                    next kvs =>
                      split at h <;>
                        (simp at h; cases h; exact ⟨hok.1, htha, hok.2.2⟩)
                    next =>
                      simp at h; cases h; exact ⟨hok.1, htha, hok.2.2⟩
              · simp at h; cases h; exact ⟨hok.1, htha, hok.2.2⟩
  next => simp at h

theorem joseRemote_trace {σ : SigOracle} {env : Nat → FetchResult}
    {token u : List Char} {opts : JoseOptions} {st : NetState} {a : List Char}
    (h : a ∈ (joseJwtVerifyRemote σ env token u opts st).1.2) :
    a ∈ supportedAlgs ∧ tokenHeaderAlg token = some a ∧
      ∀ l, opts.algorithms = some l → a ∈ l := by
  unfold joseJwtVerifyRemote at h
  split at h
  next => simp at h
  next r st1 hfetch =>
    split at h
    next hok =>
      split at h
      next => simp at h
      next jwksJson hparse =>
        split at h
        next keys hkeys => exact joseVerifyCore_trace h
        next => simp at h
    next => simp at h

theorem jsonToStr_str (s : List Char) : jsonToStr (.str s) = s := rfl

theorem asymEffectiveAlg_override {s : List Char} (hdr : Json) (hs : s ≠ []) :
    asymEffectiveAlg (some s) hdr = s := by
  simp [asymEffectiveAlg, jsOr, jsTruthy, jsToStr, jsonToStr_str, hs]

theorem asymEffectiveAlg_header {hdr : Json} {b : List Char}
    (hb : jsLookup hdr "alg".data = some (.str b)) (hbne : b ≠ []) :
    asymEffectiveAlg none hdr = b := by
  simp [asymEffectiveAlg, jsOr, jsTruthy, hb, jsToStr, jsonToStr_str, hbne]

theorem asymEffectiveAlg_default {hdr : Json}
    (h : jsTruthy (jsLookup hdr "alg".data) = false) :
    asymEffectiveAlg none hdr = "RS256".data := by
  unfold asymEffectiveAlg
  have h0 : (none : Option (List Char)).map Json.str = none := rfl
  rw [h0]
  have h1 : jsOr none (jsLookup hdr "alg".data) = jsLookup hdr "alg".data := by
    unfold jsOr jsTruthy
    simp
  rw [h1]
  unfold jsOr
  rw [h]
  simp [jsToStr, jsonToStr_str]

/-! ## The claims -/

/-- C1: on every verification call of the three entry points the
algorithm with which the signature oracle is invoked is pinned: in the
asymmetric flow it is the expression override-else-header-alg-else-RS256
(in particular a non-empty caller override when one is given, else the
header's declared algorithm), in the symmetric flow the caller's chosen
HMAC algorithm, and in the OIDC flow the algorithm the token header
declares; in every flow it lies in the supported algorithm set, which
excludes algorithm-none, so no call path reaches signature verification
unconstrained. -/
theorem algorithm_pinned :
    (∀ imp σ token pk algo a, a ∈ (verifyWithAsymmetricKey imp σ token pk algo).2 →
      a ∈ supportedAlgs ∧
      ∃ hdr, headerPeek token = .ok hdr ∧ a = asymEffectiveAlg algo hdr ∧
        (∀ s, algo = some s → s ≠ [] → a = s) ∧
        (algo = none → ∀ b, jsLookup hdr "alg".data = some (.str b) → b ≠ [] → a = b)) ∧
    (∀ σ token sec alg a, a ∈ (verifyWithSymmetricKey σ token sec alg).2 →
      a ∈ supportedAlgs ∧ a = alg) ∧
    (∀ σ env token iss flag st a, a ∈ (verifyWithOpenId σ env token iss flag st).1.2 →
      a ∈ supportedAlgs ∧ tokenHeaderAlg token = some a) := by
  refine ⟨?_, ?_, ?_⟩
  · intro imp σ token pk algo a h
    have h' : a ∈ (verifyWithAsymmetricKeyCore imp σ token pk algo).2 := h
    unfold verifyWithAsymmetricKeyCore at h'
    split at h'
    next => simp at h'
    next hdr hpeek =>
      split at h'
      next => simp at h'
      next =>
        have ht := joseVerifyCore_trace h'
        have ha : a = asymEffectiveAlg algo hdr := by
          have := ht.2.2 _ rfl
          simpa using this
        refine ⟨ht.1, hdr, hpeek, ha, ?_, ?_⟩
        · intro s hs hsne
          rw [ha, hs, asymEffectiveAlg_override hdr hsne]
        · intro hnone b hb hbne
          rw [ha, hnone, asymEffectiveAlg_header hb hbne]
  · intro σ token sec alg a h
    have h' : a ∈ (verifyWithSymmetricKeyCore σ token sec alg).2 := h
    have ht := joseVerifyCore_trace h'
    have := ht.2.2 _ rfl
    exact ⟨ht.1, by simpa using this⟩
  · intro σ env token iss flag st a h
    have h' : a ∈ (verifyWithOpenIdCore σ env token iss flag st).1.2 := h
    unfold verifyWithOpenIdCore at h'
    split at h'
    next => simp at h'
    next configResp st1 hfetch =>
      split at h'
      next => simp at h'
      next config hcfg =>
        split at h'
        next hjt =>
          split at h'
          next => simp at h'
          next jwksResp st2 hfetch2 =>
            split at h'
            next => simp at h'
            next jwks hjp =>
              split at h'
              next => simp at h'
              next hdr hpeek =>
                split at h'
                next hkt =>
                  split at h'
                  next keys hkeys =>
                    split at h'
                    next => simp at h'
                    next mk hfind =>
                      have ht := joseRemote_trace h'
                      exact ⟨ht.1, ht.2.1⟩
                  next => simp at h'
                next => simp at h'
        next => simp at h'

/-! ## Concrete inputs for closed runs -/

/-- A signature oracle accepting every signature, for concrete runs. -/
def sigAccept : SigOracle := fun _ _ _ _ => true

/-- A key import accepting every PEM, for concrete runs. -/
def spkiAccept : ImportSpki := fun _ _ => .ok ()

/-- A discovery document body naming issuer X and a JWKS location. -/
def cfgBody : List Char :=
  "\x7b\"issuer\":\"X\",\"jwks_uri\":\"https://idp/jwks\"\x7d".data

/-- A JWK set body holding the single key k1. -/
def jwksBody1 : List Char := "\x7b\"keys\":[\x7b\"kid\":\"k1\"\x7d]\x7d".data

/-- A JWK set body holding two keys, neither named k1. -/
def jwksBodyNoMatch : List Char :=
  "\x7b\"keys\":[\x7b\"kid\":\"zz\"\x7d,\x7b\"kid\":\"yy\"\x7d]\x7d".data

/-- An environment answering every fetch successfully: the discovery
document first, the single-key JWK set afterwards. -/
def envHappy : Nat → FetchResult := fun k =>
  if k = 0 then .ok ⟨true, cfgBody⟩ else .ok ⟨true, jwksBody1⟩

/-- Like envHappy but with a JWK set that does not contain kid k1. -/
def envNoMatch : Nat → FetchResult := fun k =>
  if k = 0 then .ok ⟨true, cfgBody⟩ else .ok ⟨true, jwksBodyNoMatch⟩

/-- An environment whose first fetch returns a non-ok HTTP response, whose
second throws a transport error and whose third succeeds. -/
def envTriple : Nat → FetchResult := fun k =>
  if k = 0 then .ok ⟨false, []⟩
  else if k = 1 then .error "network error".data
  else .ok ⟨true, "{}".data⟩

/-- An environment in which every fetch throws. -/
def envDown : Nat → FetchResult := fun _ => .error "network down".data

/-- A token whose header declares HS256 and kid k1 and whose payload
claims issuer X. -/
def tokKid : List Char :=
  "eyJhbGciOiJIUzI1NiIsImtpZCI6ImsxIn0.eyJpc3MiOiJYIn0.sig".data

/-- A token whose header declares HS256 and no kid. -/
def tokNoKid : List Char := "eyJhbGciOiJIUzI1NiJ9.eyJpc3MiOiJYIn0.sig".data

/-- A token whose header declares HS256 and whose payload is empty. -/
def tokHs : List Char := "eyJhbGciOiJIUzI1NiJ9.e30.sig".data

/-- A token whose header has no alg member at all. -/
def tokNoAlg : List Char := "eyJ0eXAiOiJKV1QifQ.e30.sig".data

/-- The base64url encoding of a JSON header containing the byte that
forces the URL-safe character minus into the encoding. -/
def segDash : List Char := "eyJhIjoiPz4-In0".data

/-- A three-segment token whose header segment is segDash. -/
def tokDash : List Char := "eyJhIjoiPz4-In0.e30.sig".data

/-! ## Fetch lemmas -/

theorem fetchProxyAttempt_ok {env : Nat → FetchResult} {url : List Char}
    {st : NetState} {r : Response} {st2 : NetState}
    (h : fetchProxyAttempt env url st = (.ok r, st2)) : r.ok = true := by
  unfold fetchProxyAttempt doFetch at h
  split at h
  next heq => cases h
  next r2 heq =>
    split at h
    next hok => cases h; exact hok
    next => cases h

theorem fetchFallbackTry_ok {env : Nat → FetchResult} {url : List Char}
    {flag : Bool} {st : NetState} {r : Response} {st2 : NetState}
    (h : fetchFallbackTry env url flag st = (.ok r, st2)) : r.ok = true := by
  unfold fetchFallbackTry doFetch at h
  split at h
  next => exact fetchProxyAttempt_ok h
  next =>
    split at h
    next => cases h
    next r2 heq =>
      split at h
      next hok => cases h; exact hok
      next => exact fetchProxyAttempt_ok h

theorem fetch_direct_ok {env : Nat → FetchResult} {r : Response}
    (u : List Char) {st : NetState}
    (h1 : env st.n = .ok r) (h2 : r.ok = true) :
    fetchWithCorsProxyFallback env u false st =
      (.ok r, ⟨st.n + 1, st.trace ++ [u]⟩) := by
  unfold fetchWithCorsProxyFallback fetchFallbackTry doFetch
  simp [h1, h2]

theorem joseRemote_state {σ : SigOracle} {env : Nat → FetchResult}
    {token u : List Char} {opts : JoseOptions} {st : NetState} :
    (joseJwtVerifyRemote σ env token u opts st).2 =
      ⟨st.n + 1, st.trace ++ [u]⟩ := by
  unfold joseJwtVerifyRemote doFetch
  cases henv : env st.n with
  | error e => rfl
  | ok r =>
    dsimp only
    repeat' split
    all_goals rfl

/-- Witness for the algorithm-pinning theorem: concrete runs of the three
flows in which the signature oracle is reached, with HS256 the pinned
algorithm each time. -/
theorem algorithm_pinned_witness :
    ("HS256".data ∈ supportedAlgs ∧
      ∃ hdr, headerPeek tokHs = .ok hdr ∧
        "HS256".data = asymEffectiveAlg none hdr ∧
        (∀ s, (none : Option (List Char)) = some s → s ≠ [] → "HS256".data = s) ∧
        ((none : Option (List Char)) = none →
          ∀ b, jsLookup hdr "alg".data = some (.str b) → b ≠ [] → "HS256".data = b)) ∧
    ("HS256".data ∈ supportedAlgs ∧ "HS256".data = "HS256".data) ∧
    ("HS256".data ∈ supportedAlgs ∧ tokenHeaderAlg tokKid = some "HS256".data) :=
  ⟨algorithm_pinned.1 spkiAccept sigAccept tokHs "PEM".data none "HS256".data (by decide),
   algorithm_pinned.2.1 sigAccept tokHs "sec".data "HS256".data "HS256".data (by decide),
   algorithm_pinned.2.2 sigAccept envHappy tokKid "https://idp".data false ⟨0, []⟩
     "HS256".data (by decide)⟩

/-- C2: the claim that no URL ever sees more than two fetch attempts fails
on the code: with the proxy flag off, a direct fetch answered by a non-ok
HTTP response falls through to a proxy attempt inside the try block, and
when that attempt fails the catch handler launches a second proxy attempt,
for three fetch calls in total, the proxied URL requested twice. -/
theorem fetch_fallback_three_attempts :
    (fetchWithCorsProxyFallback envTriple "https://x".data false ⟨0, []⟩).2.n = 3 ∧
    (fetchWithCorsProxyFallback envTriple "https://x".data false ⟨0, []⟩).2.trace =
      ["https://x".data, corsProxied "https://x".data, corsProxied "https://x".data] := by
  exact ⟨by decide, by decide⟩

/-- C3: segment decoding is the standard-base64 atob, not Base64URL: the
valid Base64URL segment segDash (which contains the minus character) is
rejected, a full token built from it fails to decode with the atob
character error, and the plus character, which lies outside the URL-safe
alphabet, is accepted. -/
theorem segment_decode_not_base64url :
    specBase64UrlValid segDash = true ∧
    atob segDash = none ∧
    decodeJwt tokDash = .error .invalidCharacter ∧
    specBase64UrlValid "+w".data = false ∧
    (atob "+w".data).isSome = true :=
  ⟨by decide, by decide, by rfl, by decide, by decide⟩

/-- C4 counterexample: the input ab..cd splits on dots into three parts of
which one is empty, so the claim requires the MalformedToken failure, but
the code's split check only counts parts and the run instead fails later
with the JSON parse error. -/
theorem split_allows_empty_parts :
    splitOnChar '.' "ab..cd".data = ["ab".data, [], "cd".data] ∧
    decodeJwt "ab..cd".data = .error .jsonError ∧
    DecodeError.jsonError ≠ DecodeError.malformedToken :=
  ⟨by decide, by rfl, by decide⟩

/-- C4 amended: decodeJwt fails with the MalformedToken error exactly when
splitting on dots does not yield three parts (empty parts allowed), that
is, exactly when the input does not contain exactly two dot separators. -/
theorem malformed_token_iff_not_three_parts :
    ∀ token : List Char,
      decodeJwt token = .error .malformedToken ↔
        (splitOnChar '.' token).length ≠ 3 := by
  intro token
  constructor
  · intro h
    unfold decodeJwt at h
    split at h
    next hseg pseg sseg hsplit =>
      exfalso
      split at h
      next => simp at h
      next =>
        split at h
        next => simp at h
        next =>
          split at h
          next => simp at h
          next =>
            split at h
            next => simp at h
            next => simp at h
    next hsplit hno =>
      intro hlen
      rcases hl : splitOnChar '.' token with _ | ⟨a, _ | ⟨b, _ | ⟨c, _ | _⟩⟩⟩ <;>
        rw [hl] at hlen <;> simp at hlen
      exact hno a b c hl
  · intro hne
    unfold decodeJwt
    split
    next hseg pseg sseg hsplit => rw [hsplit] at hne; simp at hne
    next => rfl

/-- C5 counterexample: a successful OIDC verification against an
all-successful environment performs three network fetches, not two — the
discovery document, the JWKS for the kid scan, and the JWKS once more by
the remote key set during signature verification. -/
theorem oidc_three_fetches_counterexample :
    (verifyWithOpenId sigAccept envHappy tokKid "https://idp".data false ⟨0, []⟩).1.1.isValid
      = true ∧
    (verifyWithOpenId sigAccept envHappy tokKid "https://idp".data false ⟨0, []⟩).2.trace =
      ["https://idp/.well-known/openid-configuration".data,
       "https://idp/jwks".data, "https://idp/jwks".data] ∧
    (verifyWithOpenId sigAccept envHappy tokKid "https://idp".data false ⟨0, []⟩).2.n = 3 :=
  ⟨by decide, by decide, by decide⟩

/-- C5 amended: with the proxy flag off and every fetch answered directly
with success, a successful OIDC verification performs exactly three
fetches in strict sequence — the discovery URL first, then the JWKS URL
twice, the second time during signature verification; no fetch overlaps
another, the call counter advancing by one per trace entry. -/
theorem oidc_sequential_fetches :
    ∀ σ env token iss st out tr st2,
      (∀ k : Nat, ∃ r, env k = .ok r ∧ r.ok = true) →
      verifyWithOpenIdCore σ env token iss false st = ((Except.ok out, tr), st2) →
      ∃ u, st2.trace = st.trace ++ [openIdConfigUrl iss, u, u] ∧ st2.n = st.n + 3 := by
  intro σ env token iss st out tr st2 hok h
  obtain ⟨r0, he0, ho0⟩ := hok st.n
  obtain ⟨r1, he1, ho1⟩ := hok (st.n + 1)
  unfold verifyWithOpenIdCore at h
  rw [fetch_direct_ok (openIdConfigUrl iss) he0 ho0] at h
  dsimp only at h
  split at h
  next => simp at h
  next config hcfg =>
    split at h
    next hjt =>
      rw [fetch_direct_ok (jsToStr (jsLookup config "jwks_uri".data)) he1 ho1] at h
      dsimp only at h
      split at h
      next => simp at h
      next jwks hjp =>
        split at h
        next => simp at h
        next hdr hpeek =>
          split at h
          next hkt =>
            split at h
            next keys hkeys =>
              split at h
              next => simp at h
              next mk hfind =>
                have h2 := congrArg Prod.snd h
                rw [joseRemote_state] at h2
                dsimp only at h2
                subst h2
                refine ⟨jsToStr (jsLookup config "jwks_uri".data), ?_, ?_⟩
                · dsimp only
                  simp [List.append_assoc]
                · rfl
            next => simp at h
          next => simp at h
    next => simp at h

/-- Witness for the sequential-fetch theorem: the happy-path environment
run, whose three-entry trace is discovery first and the JWKS URL twice. -/
theorem oidc_sequential_fetches_witness :
    ∃ u, (["https://idp/.well-known/openid-configuration".data,
           "https://idp/jwks".data, "https://idp/jwks".data] : List (List Char)) =
        [] ++ [openIdConfigUrl "https://idp".data, u, u] ∧ (3 : Nat) = 0 + 3 := by
  have hok : ∀ k : Nat, ∃ r, envHappy k = .ok r ∧ r.ok = true := by
    intro k
    cases k with
    | zero => exact ⟨⟨true, cfgBody⟩, rfl, rfl⟩
    | succ n => exact ⟨⟨true, jwksBody1⟩, rfl, rfl⟩
  exact oidc_sequential_fetches sigAccept envHappy tokKid "https://idp".data ⟨0, []⟩
    (Json.obj [("iss".data, .str "X".data)],
      Json.obj [("alg".data, .str "HS256".data), ("kid".data, .str "k1".data)])
    ["HS256".data]
    ⟨3, ["https://idp/.well-known/openid-configuration".data,
         "https://idp/jwks".data, "https://idp/jwks".data]⟩
    hok rfl

/-- C6: once the discovery and JWKS fetches have succeeded and the token
header has been decoded, a header without a truthy kid fails with the
missing-key-id message, and a truthy kid matched against none of the
fetched keys — however many there are — fails with the key-not-found
message naming the kid; there is no fallback to the first key. -/
theorem oidc_kid_selection :
    ∀ σ env token iss st config keys r0 r1,
      env st.n = .ok r0 → r0.ok = true →
      env (st.n + 1) = .ok r1 → r1.ok = true →
      jsonParse r0.body = some config →
      jsTruthy (jsLookup config "jwks_uri".data) = true →
      jsonParse r1.body = some (Json.obj [("keys".data, Json.arr keys)]) →
      ∀ hdr, headerPeek token = .ok hdr →
        ((jsTruthy (jsLookup hdr "kid".data) = false →
          (verifyWithOpenId σ env token iss false st).1.1 =
            ⟨false, "Token header does not contain a key ID (kid)".data, none⟩) ∧
         (jsTruthy (jsLookup hdr "kid".data) = true →
          keys.find? (fun k =>
            jsStrictEq (jsLookup k "kid".data) (jsLookup hdr "kid".data)) = none →
          (verifyWithOpenId σ env token iss false st).1.1 =
            ⟨false, "No matching key found for kid: ".data ++
              jsToStr (jsLookup hdr "kid".data), none⟩)) := by
  intro σ env token iss st config keys r0 r1 h0 ho0 h1 ho1 hc hjt hk hdr hpeek
  constructor
  · intro hkidf
    show mkResult "Token successfully verified with OpenID provider".data
      (verifyWithOpenIdCore σ env token iss false st).1.1 = _
    unfold verifyWithOpenIdCore
    rw [fetch_direct_ok (openIdConfigUrl iss) h0 ho0]
    dsimp only
    rw [hc]
    dsimp only
    split
    next =>
      rw [fetch_direct_ok (jsToStr (jsLookup config "jwks_uri".data)) h1 ho1]
      dsimp only
      rw [hk]
      dsimp only
      rw [hpeek]
      dsimp only
      split
      next hkid2 => rw [hkidf] at hkid2; cases hkid2
      next => rfl
    next hjt2 => exact absurd hjt hjt2
  · intro hkidt hfind
    show mkResult "Token successfully verified with OpenID provider".data
      (verifyWithOpenIdCore σ env token iss false st).1.1 = _
    unfold verifyWithOpenIdCore
    rw [fetch_direct_ok (openIdConfigUrl iss) h0 ho0]
    dsimp only
    rw [hc]
    dsimp only
    split
    next =>
      rw [fetch_direct_ok (jsToStr (jsLookup config "jwks_uri".data)) h1 ho1]
      dsimp only
      rw [hk]
      dsimp only
      rw [hpeek]
      dsimp only
      split
      next =>
        have hlk : jsLookup (Json.obj [("keys".data, Json.arr keys)]) "keys".data =
            some (Json.arr keys) := rfl
        rw [hlk]
        dsimp only
        rw [hfind]
        rfl
      next hkid2 => exact absurd hkidt hkid2
    next hjt2 => exact absurd hjt hjt2

/-- Witness for the kid-selection theorem: the happy-path environment with
a kid-less token hits the missing-key-id result, and the two-key
environment without kid k1 hits the key-not-found result. -/
theorem oidc_kid_selection_witness :
    ((verifyWithOpenId sigAccept envHappy tokNoKid "https://idp".data false ⟨0, []⟩).1.1 =
      ⟨false, "Token header does not contain a key ID (kid)".data, none⟩) ∧
    ((verifyWithOpenId sigAccept envNoMatch tokKid "https://idp".data false ⟨0, []⟩).1.1 =
      ⟨false, "No matching key found for kid: ".data ++
        jsToStr (jsLookup (Json.obj [("alg".data, Json.str "HS256".data),
          ("kid".data, Json.str "k1".data)]) "kid".data), none⟩) := by
  constructor
  · exact (oidc_kid_selection sigAccept envHappy tokNoKid "https://idp".data ⟨0, []⟩
      (Json.obj [("issuer".data, .str "X".data),
        ("jwks_uri".data, .str "https://idp/jwks".data)])
      [Json.obj [("kid".data, .str "k1".data)]]
      ⟨true, cfgBody⟩ ⟨true, jwksBody1⟩ rfl rfl rfl rfl rfl rfl rfl
      (Json.obj [("alg".data, .str "HS256".data)]) rfl).1 rfl
  · exact (oidc_kid_selection sigAccept envNoMatch tokKid "https://idp".data ⟨0, []⟩
      (Json.obj [("issuer".data, .str "X".data),
        ("jwks_uri".data, .str "https://idp/jwks".data)])
      [Json.obj [("kid".data, .str "zz".data)], Json.obj [("kid".data, .str "yy".data)]]
      ⟨true, cfgBody⟩ ⟨true, jwksBodyNoMatch⟩ rfl rfl rfl rfl rfl rfl rfl
      (Json.obj [("alg".data, .str "HS256".data), ("kid".data, .str "k1".data)]) rfl).2
      rfl rfl

/-- C7: in every flow the result carries the decoded details exactly when
it is valid: the boundary conversion attaches the payload and header pair
on success and omits it on failure. -/
theorem details_present_iff_valid :
    (∀ imp σ token pk algo,
      ((verifyWithAsymmetricKey imp σ token pk algo).1.details).isSome =
        (verifyWithAsymmetricKey imp σ token pk algo).1.isValid) ∧
    (∀ σ token sec alg,
      ((verifyWithSymmetricKey σ token sec alg).1.details).isSome =
        (verifyWithSymmetricKey σ token sec alg).1.isValid) ∧
    (∀ σ env token iss flag st,
      ((verifyWithOpenId σ env token iss flag st).1.1.details).isSome =
        (verifyWithOpenId σ env token iss flag st).1.1.isValid) :=
  ⟨fun _ _ _ _ _ => mkResult_details_iff _ _,
   fun _ _ _ _ => mkResult_details_iff _ _,
   fun _ _ _ _ _ _ => mkResult_details_iff _ _⟩

/-- C8: every error a flow's fallible body produces is caught at the
boundary and converted into the non-throwing invalid result carrying that
error's message and no details; the public entry points are total. -/
theorem errors_caught_at_boundary :
    (∀ imp σ token pk algo m,
      (verifyWithAsymmetricKeyCore imp σ token pk algo).1 = .error m →
      (verifyWithAsymmetricKey imp σ token pk algo).1 = ⟨false, m, none⟩) ∧
    (∀ σ token sec alg m,
      (verifyWithSymmetricKeyCore σ token sec alg).1 = .error m →
      (verifyWithSymmetricKey σ token sec alg).1 = ⟨false, m, none⟩) ∧
    (∀ σ env token iss flag st m,
      (verifyWithOpenIdCore σ env token iss flag st).1.1 = .error m →
      (verifyWithOpenId σ env token iss flag st).1.1 = ⟨false, m, none⟩) := by
  refine ⟨?_, ?_, ?_⟩
  · intro imp σ token pk algo m h
    show mkResult "Token successfully verified with asymmetric key".data
      (verifyWithAsymmetricKeyCore imp σ token pk algo).1 = _
    rw [h]
    rfl
  · intro σ token sec alg m h
    show mkResult "Token successfully verified with symmetric key".data
      (verifyWithSymmetricKeyCore σ token sec alg).1 = _
    rw [h]
    rfl
  · intro σ env token iss flag st m h
    show mkResult "Token successfully verified with OpenID provider".data
      (verifyWithOpenIdCore σ env token iss flag st).1.1 = _
    rw [h]
    rfl

/-- Witness for the boundary theorem: concrete failing runs of the three
flows, each converted to an invalid result with the error's message. -/
theorem errors_caught_at_boundary_witness :
    ((verifyWithAsymmetricKey spkiAccept sigAccept "x".data "PEM".data none).1 =
      ⟨false, "InvalidCharacterError: The string to be decoded is not correctly encoded.".data,
        none⟩) ∧
    ((verifyWithSymmetricKey sigAccept "x".data "sec".data "HS256".data).1 =
      ⟨false, "Invalid Compact JWS".data, none⟩) ∧
    ((verifyWithOpenId sigAccept envDown tokKid "https://idp".data false ⟨0, []⟩).1.1 =
      ⟨false, "network down".data, none⟩) :=
  ⟨errors_caught_at_boundary.1 spkiAccept sigAccept "x".data "PEM".data none _ rfl,
   errors_caught_at_boundary.2.1 sigAccept "x".data "sec".data "HS256".data _ rfl,
   errors_caught_at_boundary.2.2 sigAccept envDown tokKid "https://idp".data false ⟨0, []⟩ _ rfl⟩

/-- C9: in the asymmetric flow, with no caller algorithm override and a
decoded header that has no alg member, the silent default RS256 is chosen:
the effective algorithm is RS256, the key is imported for RS256 and the
verifier is constrained to exactly that algorithm. -/
theorem asym_silent_default_rs256 :
    ∀ imp σ token pk hdr,
      headerPeek token = .ok hdr →
      jsLookup hdr "alg".data = none →
      asymEffectiveAlg none hdr = "RS256".data ∧
      verifyWithAsymmetricKeyCore imp σ token pk none =
        (match imp pk "RS256".data with
         | .error e => (.error e, [])
         | .ok _ =>
           joseJwtVerify σ token (.str pk) { algorithms := some ["RS256".data] }) := by
  intro imp σ token pk hdr hpeek halg
  have hdef : asymEffectiveAlg none hdr = "RS256".data :=
    asymEffectiveAlg_default (by rw [halg]; rfl)
  refine ⟨hdef, ?_⟩
  unfold verifyWithAsymmetricKeyCore
  rw [hpeek]
  dsimp only
  rw [hdef]

/-- Witness for the silent default: the token whose header only carries a
typ member resolves to RS256. -/
theorem asym_silent_default_rs256_witness :
    asymEffectiveAlg none (Json.obj [("typ".data, Json.str "JWT".data)]) = "RS256".data ∧
    verifyWithAsymmetricKeyCore spkiAccept sigAccept tokNoAlg "PEM".data none =
      (match spkiAccept "PEM".data "RS256".data with
       | .error e => (.error e, [])
       | .ok _ =>
         joseJwtVerify sigAccept tokNoAlg (.str "PEM".data)
           { algorithms := some ["RS256".data] }) :=
  asym_silent_default_rs256 spkiAccept sigAccept tokNoAlg "PEM".data
    (Json.obj [("typ".data, Json.str "JWT".data)]) rfl rfl

/-- C10: the fetch helper never hands a non-success response to its
caller: whenever it returns normally, the returned response's ok flag is
true; every other outcome is a thrown error. -/
theorem fetch_fallback_returns_ok :
    ∀ env url flag st r st2,
      fetchWithCorsProxyFallback env url flag st = (.ok r, st2) → r.ok = true := by
  intro env url flag st r st2 h
  unfold fetchWithCorsProxyFallback at h
  split at h
  next r2 st3 heq =>
    cases h
    exact fetchFallbackTry_ok heq
  next e st3 heq =>
    split at h
    next => cases h
    next =>
      unfold doFetch at h
      split at h
      next => cases h
      next r2 heq2 =>
        split at h
        next hok => cases h; exact hok
        next => cases h

/-- Witness for the ok-or-throw theorem: a concrete environment whose
direct fetch succeeds. -/
theorem fetch_fallback_returns_ok_witness :
    (⟨true, cfgBody⟩ : Response).ok = true :=
  fetch_fallback_returns_ok envHappy "https://idp".data false ⟨0, []⟩
    ⟨true, cfgBody⟩ ⟨1, ["https://idp".data]⟩ rfl

end JwtDecoder
